import Mathlib

/-!
Verification of the LLM load-balancing and streaming-proxy engine of the
api-gateway repository, against its natural-language specification.

The development shallowly embeds `app/core/model_load_balencer.py` and the
model-proxy route of `app/api/model_base.py`:

* Python floats are modelled as exact rationals (`ℚ`); every arithmetic step
  performed by the code (`* 0.8`, `* 1.05`, divisions, comparisons) is exact
  in decimals, so the rational semantics agrees with the float semantics on
  all scenario values considered here.
* The two parallel dicts `service_weights[model][name]` and
  `service_metrics[model][name]` are created together with identical keys and
  are never keyed apart, so they are merged into one association list
  `List (String × NodeInfo)` per model, with the `service_weights` entry kept
  as the `w` field of `NodeInfo`.
* Python dicts preserve insertion order; association lists model them, with
  iteration in list order.
* Fallible Python code is embedded in `Except PyErr`; an uncaught exception
  of the source is an `.error` value here.
-/

set_option maxRecDepth 40000

namespace ApiGateway

/-- Association-list lookup, modelling `d[k]`/`k in d` on an insertion-ordered
Python dict with distinct keys. -/
def alookup (k : String) (l : List (String × α)) : Option α :=
  (l.find? (fun p => p.1 = k)).map (·.2)

/-- Pointwise update of the entry at key `k`, modelling in-place mutation of
`d[k]`. Keys, and all other entries, are unchanged. -/
def aset (k : String) (f : α → α) (l : List (String × α)) : List (String × α) :=
  l.map (fun p => if p.1 = k then (p.1, f p.2) else p)

/-- `状态` of a model instance: `'健康'` (healthy) or `'警告'` (warning).
No other value is ever stored by the load balancer. -/
inductive NodeStatus where
  | healthy
  | warning
  deriving DecidableEq, Repr

/-- `负载均衡情况`: `'均衡'` (balanced) or `'不均衡'` (unbalanced). -/
inductive BalanceLabel where
  | balanced
  | unbalanced
  deriving DecidableEq, Repr

/-- One entry of `service_weights[model]`. -/
structure WeightInfo where
  current_weight : ℚ
  effective_weight : ℚ
  history_failures : ℕ
  deriving DecidableEq, Repr

/-- One entry of `service_metrics[model]`, merged with its
`service_weights[model]` twin (field `w`).  Field names translate the
Chinese display keys: `node_name` = `节点名称`, `ip_addr` = `IP地址`,
`status` = `状态`, `balance` = `负载均衡情况`, `load_rate` = `负载率`,
`token_total` = `Token数量`, `inference_time` = `推理时间`,
`weight` = `权重`. -/
structure NodeInfo where
  node_name : String
  ip_addr : String
  status : NodeStatus
  balance : BalanceLabel
  load_rate : ℚ
  token_total : ℚ
  inference_time : ℚ
  weight : ℚ
  node_id : String
  active_requests : ℕ
  request_count : ℕ
  error_count : ℕ
  last_update : ℚ
  load_threshold : ℚ
  load_history : List (ℚ × ℕ)
  w : WeightInfo
  deriving DecidableEq, Repr

/-- The `ModelLoadBalancer` singleton's mutable state. -/
structure ModelLB where
  service_metrics : List (String × List (String × NodeInfo))
  deriving DecidableEq, Repr

/-- One entry of a model's instance list in `MODEL_INSTANCES` configuration. -/
structure InstanceConfig where
  ip : String
  name : String
  initial_weight : ℚ := 20
  load_threshold : ℚ := 100
  deriving DecidableEq, Repr

/-- `MODEL_INSTANCES`: model name → ordered instance list. -/
def ModelConfig := List (String × List InstanceConfig)

/-- The suffix of `cs` after the first occurrence of `pat`, when present. -/
def dropAfterSub [DecidableEq α] (pat : List α) : List α → Option (List α)
  | [] => if pat = [] then some [] else none
  | c :: rest =>
    if pat.isPrefixOf (c :: rest) then some ((c :: rest).drop pat.length)
    else dropAfterSub pat rest

/-- The `netloc` of a URL of the shape `scheme://host:port[/path]` (the shape
used by the configuration), as `urlparse` extracts it. -/
def urlNetloc (url : String) : List Char :=
  let cs := url.toList
  let afterScheme := (dropAfterSub [':', '/', '/'] cs).getD cs
  afterScheme.takeWhile (fun c => c ≠ '/')

/-- `urlparse(url).hostname`: the part of the authority before the port
colon, lowercased. -/
def urlHost (url : String) : String :=
  String.mk (((urlNetloc url).takeWhile (fun c => c ≠ ':')).map Char.toLower)

/-- `f"{urlparse(url).hostname}:{urlparse(url).port}"`.  When no port is
present Python formats `None`, which we reproduce literally. -/
def urlNodeId (url : String) : String :=
  let port := ((urlNetloc url).dropWhile (fun c => c ≠ ':')).drop 1
  urlHost url ++ ":" ++ (if port = [] then "None" else String.mk port)

/-- `ModelLoadBalancer.initialize`: builds `service_metrics` (and the merged
`service_weights`) from the configuration, exactly the initial dict literals
of the source; `t` is `time.time()` at initialization. -/
def initializeLB (cfg : ModelConfig) (t : ℚ) : ModelLB :=
  { service_metrics :=
      cfg.map (fun mi =>
        (mi.1, mi.2.map (fun inst =>
          (inst.name,
           { node_name := inst.name
             ip_addr := urlHost inst.ip
             status := .healthy
             balance := .balanced
             load_rate := 0
             token_total := 0
             inference_time := 0
             weight := inst.initial_weight
             node_id := urlNodeId inst.ip
             active_requests := 0
             request_count := 0
             error_count := 0
             last_update := t
             load_threshold := inst.load_threshold
             load_history := []
             w := { current_weight := inst.initial_weight
                    effective_weight := inst.initial_weight
                    history_failures := 0 } })))) }

/-- Failures of `get_next_instance`, raised as `HTTPException`s in the
source. -/
inductive LBErr where
  | modelNotConfigured   -- 404, `模型 '...' 未配置`
  | noHealthyNode        -- 503, `模型 '...' 没有可用的健康节点`
  deriving DecidableEq, Repr

/-- HTTP status carried by the `HTTPException` each `LBErr` raises. -/
def LBErr.status : LBErr → ℕ
  | .modelNotConfigured => 404
  | .noHealthyNode => 503

/-- Accumulator of the selection loop of `get_next_instance`:
`total`, `best`, `get_node_id`, `best_weight` in the source. -/
structure SelAcc where
  total : ℚ
  best : Option String
  get_node_id : String
  best_weight : ℚ
  deriving DecidableEq, Repr

/-- One iteration of the selection loop: skip non-healthy nodes; otherwise
increment `current_weight` by `effective_weight` in place, add the
incremented `current_weight` to `total`, and record the node when its
incremented `current_weight` strictly exceeds `best_weight` (which starts
at `0`). -/
def selectStep (e : String × NodeInfo) (acc : SelAcc) : (String × NodeInfo) × SelAcc :=
  if e.2.status ≠ .healthy then (e, acc)
  else
    let cw := e.2.w.current_weight + e.2.w.effective_weight
    let e' := (e.1, { e.2 with w := { e.2.w with current_weight := cw } })
    let acc' := { acc with total := acc.total + cw }
    if cw > acc.best_weight then
      (e', { acc' with best := some e.2.node_id, get_node_id := e.1, best_weight := cw })
    else (e', acc')

/-- The selection loop over the model's nodes in dict (insertion) order,
returning the mutated node list and the final accumulator. -/
def selectLoop : List (String × NodeInfo) → SelAcc →
    List (String × NodeInfo) × SelAcc
  | [], acc => ([], acc)
  | e :: rest, acc =>
    let (e', acc') := selectStep e acc
    let (rest', accF) := selectLoop rest acc'
    (e' :: rest', accF)

/-- `ModelLoadBalancer.get_next_instance`: smooth-weight selection.  Returns
`(get_node_id, best)` — the chosen instance's dict key (its name) and its
`node_id` (`host:port`) — together with the mutated state.  Note that the
state mutations of the loop persist even when the selection then fails. -/
def get_next_instance (lb : ModelLB) (model : String) :
    Except LBErr (String × String) × ModelLB :=
  match alookup model lb.service_metrics with
  | none => (.error .modelNotConfigured, lb)
  | some nodes =>
    let (nodes', acc) := selectLoop nodes ⟨0, none, "", 0⟩
    let lb' : ModelLB := ⟨aset model (fun _ => nodes') lb.service_metrics⟩
    match acc.best with
    | none => (.error .noHealthyNode, lb')
    | some best =>
      let nodes'' := aset acc.get_node_id
        (fun n => { n with
          w := { n.w with current_weight := n.w.current_weight - acc.total }
          active_requests := n.active_requests + 1 }) nodes'
      (.ok (acc.get_node_id, best), ⟨aset model (fun _ => nodes'') lb.service_metrics⟩)

/-- `load_i · (t_{i+1} − t_i)` summed over adjacent pairs of the
time-sorted load history. -/
def integrateLoad : List (ℚ × ℕ) → ℚ
  | [] => 0
  | [_] => 0
  | (t1, l1) :: (t2, l2) :: rest => (l1 : ℚ) * (t2 - t1) + integrateLoad ((t2, l2) :: rest)

/-- The `负载率` computation of `update_instance_metrics` on the already
pruned history: time-weighted integral over the 30 s window, extended from
the last sample to `now`, divided by the window length, capped by the load
threshold. -/
def computeLoadRate (history : List (ℚ × ℕ)) (now threshold : ℚ) : ℚ :=
  if history = [] then 0
  else
    let sorted := history.mergeSort (fun a b => decide (a.1 ≤ b.1))
    let total_load := integrateLoad sorted +
      (match sorted.getLast? with
       | some (lt, ll) => (ll : ℚ) * (now - lt)
       | none => 0)
    let total_duration := now - (now - 30)
    let avg_load := if total_duration > 0 then total_load / total_duration else 0
    min 1 (avg_load / threshold)

/-- The per-node part of `update_instance_metrics`, in source order:
record the response time, bump the counters, decrement `active_requests`
(floored at 0), append `(now, activeRequestsBeforeDecrement)` to the load
history, prune it to the last 30 s, recompute `负载率`, stamp
`last_update`, apply the weight controller, and mirror `effective_weight`
into the display field `权重`. -/
def updateNodeCore (n : NodeInfo) (response_time : ℚ) (is_error : Bool)
    (token_count : ℚ) (now : ℚ) : NodeInfo :=
  let pre_update_active_requests := n.active_requests
  let n := { n with
    inference_time := response_time
    request_count := n.request_count + 1
    token_total := n.token_total + token_count
    active_requests := n.active_requests - 1 }
  let history := (n.load_history ++ [(now, pre_update_active_requests)]).filter
    (fun p => decide (p.1 ≥ now - 30))
  let n := { n with
    load_history := history
    load_rate := computeLoadRate history now n.load_threshold
    last_update := now }
  if is_error then
    { n with
      error_count := n.error_count + 1
      w := { n.w with
        effective_weight := max 5 (n.w.effective_weight * (8/10))
        history_failures := n.w.history_failures + 1 }
      status := if n.w.history_failures + 1 > 3 then .warning else n.status
      weight := max 5 (n.w.effective_weight * (8/10)) }
  else
    { n with
      w := { n.w with
        effective_weight := min 100 (n.w.effective_weight * (105/100))
        history_failures := 0 }
      weight := min 100 (n.w.effective_weight * (105/100)) }

/-- The final step of `update_instance_metrics`: recompute the updated
node's `负载均衡情况` from the effective weights of the model's healthy
nodes (the updated node included). -/
def setBalance (nodes : List (String × NodeInfo)) (n : NodeInfo) : NodeInfo :=
  let ws := nodes.filterMap (fun p =>
    if p.2.status = .healthy then some p.2.weight else none)
  if ws = [] then { n with balance := .unbalanced }
  else
    let avg := ws.sum / ws.length
    let deviation := |n.weight - avg| / avg
    { n with balance := if deviation < 1/5 then .balanced else .unbalanced }

/-- `ModelLoadBalancer.update_instance_metrics` (the `commit`): a no-op when
the model or the node key is unknown; otherwise the node update followed by
the balance-label recomputation.  `now` is `time.time()` at the commit. -/
def update_instance_metrics (lb : ModelLB) (model node_id : String)
    (response_time : ℚ) (is_error : Bool) (token_count : ℚ) (now : ℚ) : ModelLB :=
  match alookup model lb.service_metrics with
  | none => lb
  | some nodes =>
    match alookup node_id nodes with
    | none => lb
    | some n =>
      let n' := updateNodeCore n response_time is_error token_count now
      let nodes' := aset node_id (fun _ => n') nodes
      let n'' := setBalance nodes' n'
      let nodes'' := aset node_id (fun _ => n'') nodes'
      ⟨aset model (fun _ => nodes'') lb.service_metrics⟩

/-! ### Metrics aggregation -/

/-- The display fields returned per node by the metrics endpoints. -/
structure NodeView where
  node_name : String
  ip_addr : String
  status : NodeStatus
  balance : BalanceLabel
  load_rate : ℚ
  token_total : ℚ
  inference_time : ℚ
  weight : ℚ
  deriving DecidableEq, Repr

def nodeView (n : NodeInfo) : NodeView :=
  ⟨n.node_name, n.ip_addr, n.status, n.balance, n.load_rate, n.token_total,
   n.inference_time, n.weight⟩

/-- `sorted(metrics_dict.values(), key=lambda x: x['节点名称'])`. -/
def sortNodes (nodes : List (String × NodeInfo)) : List NodeInfo :=
  (nodes.map (·.2)).mergeSort (fun a b => decide (a.node_name ≤ b.node_name))

/-- `ModelLoadBalancer.get_service_metrics`: per-model list of node display
fields, sorted by node name.  A pure function of the state. -/
def get_service_metrics (lb : ModelLB) : List (String × List NodeView) :=
  lb.service_metrics.map (fun p => (p.1, (sortNodes p.2).map nodeView))

/-- `np.mean`, guarded by the callers so the list is non-empty there. -/
def npMean (xs : List ℚ) : ℚ := xs.sum / xs.length

/-- Exact rational square root for arguments that are squares of rationals
(numerator and denominator of the reduced form both perfect squares).  The
variance lists arising in this development are all of this shape, where the
value agrees with `np.std`'s real square root. -/
def ratSqrt (q : ℚ) : ℚ := (Nat.sqrt q.num.toNat : ℚ) / (Nat.sqrt q.den : ℚ)

/-- `np.std` (population standard deviation), via `ratSqrt`. -/
def npStd (xs : List ℚ) : ℚ :=
  ratSqrt (npMean (xs.map (fun x => (x - npMean xs) ^ 2)))

/-- Python `round(x, d)` (round half to even) on exact rationals. -/
def pyRound (x : ℚ) (d : ℕ) : ℚ :=
  let s := x * 10 ^ d
  let n : ℤ := ⌊s⌋
  let f := s - n
  let r : ℤ :=
    if f < 1/2 then n
    else if f > 1/2 then n + 1
    else if n % 2 = 0 then n else n + 1
  (r : ℚ) / 10 ^ d

/-- The per-model global aggregate of `get_global_metrics` /
`get_combined_metrics` (field order follows the result dict literal).
`updated_at` stands for the `time.strftime` stamp, a function of `now`. -/
structure GlobalView where
  node_count : ℚ        -- 服务节点数
  healthy_count : ℚ     -- 健康节点
  lb_degree : ℚ         -- 负载均衡度 (percentage, rounded to 1 decimal)
  token_total : ℚ       -- 总Token数量
  avg_inference : ℚ     -- 平均推理时间 (rounded to 1 decimal)
  avg_load : ℚ          -- 平均负载率 (percentage, rounded to 1 decimal)
  active_services : ℚ   -- 活跃服务数
  throughput : ℚ        -- 系统吞吐量 (rounded to 1 decimal)
  updated_at : ℚ        -- 更新时间
  deriving DecidableEq, Repr

/-- The global-aggregate computation shared by `get_global_metrics` and
`get_combined_metrics`, for one model's nodes at wall time `now`. -/
def globalOf (nodes : List (String × NodeInfo)) (now : ℚ) : GlobalView :=
  let ms := nodes.map (·.2)
  let healthy_nodes := ms.filter (fun m => m.status = .healthy)
  let warning_nodes := ms.filter (fun m => m.status = .warning)
  let lb_degree : ℚ :=
    if healthy_nodes ≠ [] then
      let ws := healthy_nodes.map (·.weight)
      max 0 (min 1 (1 - npStd ws / npMean ws))
    else 0
  let total_requests : ℕ :=
    (ms.filter (fun m => m.last_update ≥ now - 10)).foldl
      (fun acc m => acc + m.request_count) 0
  let throughput : ℚ := if total_requests > 0 then (total_requests : ℚ) / 10 else 0
  let avg_load : ℚ := if ms ≠ [] then npMean (ms.map (·.load_rate)) else 0
  let avg_inference : ℚ := if ms ≠ [] then npMean (ms.map (·.inference_time)) else 0
  let total_tokens : ℚ := (ms.map (·.token_total)).sum
  { node_count := ms.length
    healthy_count := healthy_nodes.length
    lb_degree := pyRound (lb_degree * 100) 1
    token_total := total_tokens
    avg_inference := pyRound avg_inference 1
    avg_load := pyRound (avg_load * 100) 1
    active_services := (ms.length : ℚ) - warning_nodes.length
    throughput := pyRound throughput 1
    updated_at := now }

/-- `ModelLoadBalancer.get_global_metrics` at wall time `now`. -/
def get_global_metrics (lb : ModelLB) (now : ℚ) : List (String × GlobalView) :=
  lb.service_metrics.map (fun p => (p.1, globalOf p.2 now))

/-- `random_if_zero(val, rfunc)` of `get_combined_metrics`: when the value is
`0` the next value of the random stream `rng` is drawn (advancing the draw
counter `i`), otherwise the value is kept and no draw happens. -/
def randomIfZero (rng : ℕ → ℚ) (i : ℕ) (v : ℚ) : ℚ × ℕ :=
  if v = 0 then (rng i, i + 1) else (v, i)

/-- The per-node view of `get_combined_metrics`, with the four numeric
fields randomized-if-zero in source order. -/
def combinedNodeView (rng : ℕ → ℚ) (i : ℕ) (n : NodeInfo) : NodeView × ℕ :=
  let (lr, i) := randomIfZero rng i n.load_rate
  let (tt, i) := randomIfZero rng i n.token_total
  let (it, i) := randomIfZero rng i n.inference_time
  let (wt, i) := randomIfZero rng i n.weight
  (⟨n.node_name, n.ip_addr, n.status, n.balance, lr, tt, it, wt⟩, i)

def combinedNodeViews (rng : ℕ → ℚ) : ℕ → List NodeInfo → List NodeView × ℕ
  | i, [] => ([], i)
  | i, n :: rest =>
    let (v, i') := combinedNodeView rng i n
    let (vs, i'') := combinedNodeViews rng i' rest
    (v :: vs, i'')

/-- The global aggregate of `get_combined_metrics`: every field of
`globalOf` except the time stamp randomized-if-zero, in dict-literal
order. -/
def combinedGlobal (rng : ℕ → ℚ) (i : ℕ) (g : GlobalView) : GlobalView × ℕ :=
  let (nc, i) := randomIfZero rng i g.node_count
  let (hc, i) := randomIfZero rng i g.healthy_count
  let (lbd, i) := randomIfZero rng i g.lb_degree
  let (tt, i) := randomIfZero rng i g.token_total
  let (ai, i) := randomIfZero rng i g.avg_inference
  let (al, i) := randomIfZero rng i g.avg_load
  let (as', i) := randomIfZero rng i g.active_services
  let (tp, i) := randomIfZero rng i g.throughput
  (⟨nc, hc, lbd, tt, ai, al, as', tp, g.updated_at⟩, i)

/-- Result shape of `get_combined_metrics`. -/
structure CombinedView where
  global_metrics : List (String × GlobalView)
  node_metrics : List (String × List NodeView)
  deriving DecidableEq, Repr

def combinedAux (rng : ℕ → ℚ) (now : ℚ) :
    ℕ → List (String × List (String × NodeInfo)) →
    (List (String × GlobalView) × List (String × List NodeView)) × ℕ
  | i, [] => (([], []), i)
  | i, (model, nodes) :: rest =>
    let (vs, i') := combinedNodeViews rng i (sortNodes nodes)
    let (g, i'') := combinedGlobal rng i' (globalOf nodes now)
    let ((gs, nss), iF) := combinedAux rng now i'' rest
    (((model, g) :: gs, (model, vs) :: nss), iF)

/-- `ModelLoadBalancer.get_combined_metrics` at wall time `now`, with the
successive `random.uniform`/`random.randint` results supplied by the
stream `rng` (consumed in evaluation order: per model, the node fields
first, then the global fields). -/
def get_combined_metrics (lb : ModelLB) (now : ℚ) (rng : ℕ → ℚ) : CombinedView :=
  let ((gs, nss), _) := combinedAux rng now 0 lb.service_metrics
  { global_metrics := gs, node_metrics := nss }

/-! ### JSON values and `json.loads`

The streaming proxy parses each `data: ` line with `json.loads` and then
inspects the result with Python `in`-tests, subscripts and `.get` calls,
whose behaviour depends on the run-time type of the parsed value.  `JVal`
models Python's JSON value space; numbers are kept as exact decimals
`mant / 10 ^ exp10`.  The parser below models `json.loads` on the inputs
exercised by this protocol; it does not support string escapes or exponent
notation (it fails there, sending such lines to the regex fallback). -/

inductive JVal where
  | jnull
  | jbool (b : Bool)
  | jnum (mant : ℤ) (exp10 : ℕ)
  | jstr (s : String)
  | jarr (elems : List JVal)
  | jobj (fields : List (String × JVal))

/-- The rational value of a JSON number. -/
def JVal.numVal (mant : ℤ) (exp10 : ℕ) : ℚ := (mant : ℚ) / 10 ^ exp10

def lcurl : Char := Char.ofNat 123
def rcurl : Char := Char.ofNat 125

def isJsonWs (c : Char) : Bool := c = ' ' ∨ c = '\t' ∨ c = '\n' ∨ c = '\r'

def skipWs (cs : List Char) : List Char := cs.dropWhile isJsonWs

def isDigitCh (c : Char) : Bool := '0' ≤ c ∧ c ≤ '9'

def digitsVal (ds : List Char) : ℕ :=
  ds.foldl (fun acc c => acc * 10 + (c.toNat - '0'.toNat)) 0

/-- Longest digit run at the front, with the rest. -/
def takeDigits (cs : List Char) : List Char × List Char :=
  (cs.takeWhile isDigitCh, cs.dropWhile isDigitCh)

/-- JSON string body after the opening quote: plain characters up to the
closing quote (escapes and control characters unsupported — parse
failure). -/
def parseStrBody : List Char → Option (List Char × List Char)
  | [] => none
  | c :: rest =>
    if c = '"' then some ([], rest)
    else if c = '\\' ∨ c.toNat < 32 then none
    else (parseStrBody rest).map (fun p => (c :: p.1, p.2))

mutual

/-- One JSON value at the front of the input (leading whitespace already
skipped), with the remaining input. -/
def parseVal : ℕ → List Char → Option (JVal × List Char)
  | 0, _ => none
  | _ + 1, [] => none
  | fuel + 1, c :: rest =>
    if c = '"' then
      (parseStrBody rest).map (fun p => (.jstr (String.mk p.1), p.2))
    else if c = lcurl then
      match skipWs rest with
      | d :: rest' =>
        if d = rcurl then some (.jobj [], rest')
        else parseMembers fuel (d :: rest') >>= fun p => some (.jobj p.1, p.2)
      | [] => none
    else if c = '[' then
      match skipWs rest with
      | d :: rest' =>
        if d = ']' then some (.jarr [], rest')
        else parseElems fuel (d :: rest') >>= fun p => some (.jarr p.1, p.2)
      | [] => none
    else if c = 't' then
      if rest.take 3 = ['r', 'u', 'e'] then some (.jbool true, rest.drop 3) else none
    else if c = 'f' then
      if rest.take 4 = ['a', 'l', 's', 'e'] then some (.jbool false, rest.drop 4) else none
    else if c = 'n' then
      if rest.take 3 = ['u', 'l', 'l'] then some (.jnull, rest.drop 3) else none
    else
      let (sign, cs) : ℤ × List Char := if c = '-' then (-1, rest) else (1, c :: rest)
      let (intPart, cs') := takeDigits cs
      if intPart = [] then none
      else match cs' with
        | '.' :: cs'' =>
          let (fracPart, cs3) := takeDigits cs''
          if fracPart = [] then none
          else some (.jnum (sign * (digitsVal (intPart ++ fracPart) : ℤ))
            fracPart.length, cs3)
        | other => some (.jnum (sign * (digitsVal intPart : ℤ)) 0, other)

/-- Members of an object after `{` (first member starts immediately). -/
def parseMembers : ℕ → List Char → Option (List (String × JVal) × List Char)
  | 0, _ => none
  | fuel + 1, cs =>
    match skipWs cs with
    | '"' :: rest =>
      parseStrBody rest >>= fun (key, rest') =>
      match skipWs rest' with
      | ':' :: rest'' =>
        parseVal fuel (skipWs rest'') >>= fun (v, rest3) =>
        match skipWs rest3 with
        | ',' :: rest4 =>
          parseMembers fuel rest4 >>= fun p =>
            some ((String.mk key, v) :: p.1, p.2)
        | d :: rest4 =>
          if d = rcurl then some ([(String.mk key, v)], rest4) else none
        | [] => none
      | _ => none
    | _ => none

/-- Elements of an array after `[` (first element starts immediately). -/
def parseElems : ℕ → List Char → Option (List JVal × List Char)
  | 0, _ => none
  | fuel + 1, cs =>
    parseVal fuel (skipWs cs) >>= fun (v, rest) =>
    match skipWs rest with
    | ',' :: rest' => parseElems fuel rest' >>= fun p => some (v :: p.1, p.2)
    | ']' :: rest' => some ([v], rest')
    | _ => none

end

/-- `json.loads`: the whole input must be one JSON value surrounded by
whitespace. -/
def jsonLoads (cs : List Char) : Option JVal :=
  match parseVal (cs.length + 1) (skipWs cs) with
  | some (v, rest) => if skipWs rest = [] then some v else none
  | none => none

/-! ### UTF-8 decoding (`bytes.decode('utf-8')`) -/

def isCont (b : ℕ) : Bool := 0x80 ≤ b ∧ b ≤ 0xBF

/-- Strict UTF-8 decoding of a byte list (bytes are naturals < 256):
the standard 1–4-byte sequences, rejecting overlong encodings, surrogates
and out-of-range code points, as Python's `'utf-8'` codec does. -/
def utf8Aux : ℕ → List ℕ → Option (List Char)
  | _, [] => some []
  | 0, _ :: _ => none
  | fuel + 1, b :: rest =>
    if b < 0x80 then
      (utf8Aux fuel rest).map (Char.ofNat b :: ·)
    else if 0xC2 ≤ b ∧ b ≤ 0xDF then
      match rest with
      | c1 :: rest' =>
        if isCont c1 then
          (utf8Aux fuel rest').map (Char.ofNat ((b - 0xC0) * 0x40 + (c1 - 0x80)) :: ·)
        else none
      | [] => none
    else if 0xE0 ≤ b ∧ b ≤ 0xEF then
      match rest with
      | c1 :: c2 :: rest' =>
        let c1ok :=
          if b = 0xE0 then 0xA0 ≤ c1 ∧ c1 ≤ 0xBF
          else if b = 0xED then 0x80 ≤ c1 ∧ c1 ≤ 0x9F
          else isCont c1
        if c1ok ∧ isCont c2 then
          (utf8Aux fuel rest').map
            (Char.ofNat ((b - 0xE0) * 0x1000 + (c1 - 0x80) * 0x40 + (c2 - 0x80)) :: ·)
        else none
      | _ => none
    else if 0xF0 ≤ b ∧ b ≤ 0xF4 then
      match rest with
      | c1 :: c2 :: c3 :: rest' =>
        let c1ok :=
          if b = 0xF0 then 0x90 ≤ c1 ∧ c1 ≤ 0xBF
          else if b = 0xF4 then 0x80 ≤ c1 ∧ c1 ≤ 0x8F
          else isCont c1
        if c1ok ∧ isCont c2 ∧ isCont c3 then
          (utf8Aux fuel rest').map
            (Char.ofNat ((b - 0xF0) * 0x40000 + (c1 - 0x80) * 0x1000 +
              (c2 - 0x80) * 0x40 + (c3 - 0x80)) :: ·)
        else none
      | _ => none
    else none

def utf8Decode (bs : List ℕ) : Option (List Char) := utf8Aux bs.length bs

/-- ASCII text as bytes (all scenario payloads are ASCII). -/
def strBytes (s : String) : List ℕ := s.toList.map Char.toNat

/-! ### Python dynamic semantics at the inspection sites -/

/-- Exceptions the handler code can raise; `httpError s` stands for a raised
`fastapi.HTTPException(status_code=s)`. -/
inductive PyErr where
  | typeError
  | attributeError
  | keyError
  | valueError
  | nameError
  | httpError (status : ℕ)
  deriving DecidableEq, Repr

/-- Python `key in v` for a `str` key: key membership for dicts, substring
test for strings, element equality for lists, `TypeError` otherwise. -/
def pyInKey (key : String) : JVal → Except PyErr Bool
  | .jobj fs => .ok (fs.any (fun p => p.1 = key))
  | .jstr s => .ok (dropAfterSub key.toList s.toList).isSome
  | .jarr xs => .ok (xs.any (fun v => match v with | .jstr s => s = key | _ => false))
  | _ => .error .typeError

/-- Python `v[key]` for a `str` key: dict lookup (`KeyError` when absent),
`TypeError` on any non-dict. -/
def pySubscript (v : JVal) (key : String) : Except PyErr JVal :=
  match v with
  | .jobj fs =>
    match (fs.find? (fun p => p.1 = key)).map (·.2) with
    | some x => .ok x
    | none => .error .keyError
  | _ => .error .typeError

/-- `v.get(key, 0)` followed by numeric use of the result: `AttributeError`
on non-dicts; a present non-numeric value is flagged here (Python defers
that `TypeError` to the arithmetic site, with the same abort effect on the
paths modelled). -/
def pyGetNum (v : JVal) (key : String) : Except PyErr ℚ :=
  match v with
  | .jobj fs =>
    match fs.find? (fun p => p.1 = key) with
    | some (_, .jnum m e) => .ok (JVal.numVal m e)
    | some _ => .error .typeError
    | none => .ok 0
  | _ => .error .attributeError

/-! ### The stream tee of `model_request` (`generate`) -/

/-- The mutable locals of `generate` (except the wall clock):
`token_count`, `decoded_buffer`, `collected_content`,
`final_token_count`. -/
structure GenSt where
  token_count : ℚ
  decoded_buffer : List Char
  collected_content : List (List ℕ)
  final_token_count : Option ℚ
  deriving DecidableEq, Repr

def GenSt.initial : GenSt := ⟨0, [], [], none⟩

/-- Python whitespace for `str.strip` (ASCII part). -/
def isPyWs (c : Char) : Bool :=
  c = ' ' ∨ c = '\t' ∨ c = '\n' ∨ c = '\r' ∨ c.toNat = 11 ∨ c.toNat = 12

def pyStrip (cs : List Char) : List Char :=
  ((cs.dropWhile isPyWs).reverse.dropWhile isPyWs).reverse

/-- `re.search(r'"<key>":\s*(\d+)', s)`: the first position where the key is
followed by optional whitespace and at least one digit; the digit run is
the captured group. -/
def reKeyNum (key : List Char) : List Char → Option ℕ
  | [] => none
  | c :: rest =>
    if key.isPrefixOf (c :: rest) then
      let after := (c :: rest).drop key.length
      let (ds, _) := takeDigits (after.dropWhile isPyWs)
      if ds ≠ [] then some (digitsVal ds) else reKeyNum key rest
    else reKeyNum key rest

/-- The per-object token inspection of `generate` (source lines 172–185):
`metadata.usage` first, then an unconditional top-level `usage` check whose
`elif` guards the `prompt_eval_count`/`eval_count` accumulation. -/
def processData (st : GenSt) (data : JVal) : Except PyErr GenSt := do
  let hasMeta ← pyInKey "metadata" data
  let st ←
    if hasMeta then do
      let meta ← pySubscript data "metadata"
      let hasMU ← pyInKey "usage" meta
      if hasMU then do
        let usage ← pySubscript meta "usage"
        let v ← pyGetNum usage "total_tokens"
        pure { st with final_token_count := some v }
      else pure st
    else pure st
  let hasUsage ← pyInKey "usage" data
  if hasUsage then do
    let usage ← pySubscript data "usage"
    let v ← pyGetNum usage "total_tokens"
    pure { st with final_token_count := some v }
  else do
    let hasP ← pyInKey "prompt_eval_count" data
    if hasP then do
      let hasE ← pyInKey "eval_count" data
      if hasE then do
        let p ← pyGetNum data "prompt_eval_count"
        let e ← pyGetNum data "eval_count"
        pure { st with token_count := st.token_count + p + e }
      else pure st
    else pure st

/-- One extracted line: `data: `-tagged lines are JSON-parsed and inspected;
on parse failure the regex fallback runs on the stripped payload; other
lines are ignored. -/
def processLine (st : GenSt) (line : List Char) : Except PyErr GenSt :=
  if ['d', 'a', 't', 'a', ':', ' '].isPrefixOf line then
    let json_str := pyStrip (line.drop 6)
    match jsonLoads json_str with
    | some data => processData st data
    | none =>
      let st :=
        match reKeyNum ('"' :: "prompt_eval_count".toList ++ ['"', ':']) json_str with
        | some n => { st with token_count := st.token_count + n }
        | none => st
      let st :=
        match reKeyNum ('"' :: "eval_count".toList ++ ['"', ':']) json_str with
        | some n => { st with token_count := st.token_count + n }
        | none => st
      .ok st
  else .ok st

/-- Splits off every complete (newline-terminated) line of the buffer,
returning the lines and the remaining partial line — the
`while '\n' in decoded_buffer` loop. -/
def splitCompleteLines : List Char → List (List Char) × List Char
  | [] => ([], [])
  | c :: rest =>
    if c = '\n' then
      let (ls, r) := splitCompleteLines rest
      ([] :: ls, r)
    else
      match splitCompleteLines rest with
      | ([], r) => ([], c :: r)
      | (l :: ls, r) => ((c :: l) :: ls, r)

/-- Lines in order; an error carries the state at the start of the failing
line (intra-line partial mutation before a raise is not tracked — nothing
settled here depends on the parser state of an aborted stream). -/
def processLines (st : GenSt) : List (List Char) → Except (PyErr × GenSt) GenSt
  | [] => .ok st
  | l :: rest =>
    match processLine st l with
    | .ok st' => processLines st' rest
    | .error e => .error (e, st)

/-- Processing of one non-empty chunk: collect it, decode it (a chunk that
fails UTF-8 decoding is collected a second time and bypasses the line
parser), extend the decode buffer, and process every complete line.  On an
uncaught exception the state mutated so far is carried in the error. -/
def processChunk (st : GenSt) (chunk : List ℕ) : Except (PyErr × GenSt) GenSt :=
  let st := { st with collected_content := st.collected_content ++ [chunk] }
  match utf8Decode chunk with
  | none => .ok { st with collected_content := st.collected_content ++ [chunk] }
  | some chunk_str =>
    let buf := st.decoded_buffer ++ chunk_str
    let (lines, rest) := splitCompleteLines buf
    processLines { st with decoded_buffer := rest } lines

/-- The chunk loop of `generate`: empty chunks are skipped entirely; each
non-empty chunk is parsed and then yielded downstream, so a chunk whose
processing raises is never yielded and ends the stream.  Returns the
yielded chunks, the final parser state, and the error flag
(`error_occurred`). -/
def runChunks (st : GenSt) : List (List ℕ) → List (List ℕ) × GenSt × Bool
  | [] => ([], st, false)
  | c :: rest =>
    if c = [] then runChunks st rest
    else
      match processChunk st c with
      | .ok st' =>
        let (ys, stF, err) := runChunks st' rest
        (c :: ys, stF, err)
      | .error (_, stE) => ([], stE, true)

/-! ### Byte-scan token fallback -/

/-- `bs.find(pat, start)`: index of the first occurrence of `pat` at or
after `start`, or `-1`. -/
def bytesFind (bs pat : List ℕ) (start : ℕ) : ℤ :=
  match dropAfterSub pat (bs.drop start) with
  | some suffix =>
    (start : ℤ) + ((bs.drop start).length : ℤ) - suffix.length - pat.length
  | none => -1

/-- Python slice `bs[start:end]` where `end` may be the failed-find `-1`
(meaning up to the last byte exclusive). -/
def pySlice (bs : List ℕ) (start : ℕ) (stop : ℤ) : List ℕ :=
  if stop = -1 then (bs.drop start).dropLast
  else (bs.drop start).take (stop - start).toNat

def isPyWsByte (b : ℕ) : Bool :=
  b = 32 ∨ b = 9 ∨ b = 10 ∨ b = 13 ∨ b = 11 ∨ b = 12

/-- `int(bs.strip())` on a byte string: optional sign then at least one
digit, nothing else; `ValueError` otherwise. -/
def pyIntBytes (bs : List ℕ) : Except PyErr ℤ :=
  let s := ((bs.dropWhile isPyWsByte).reverse.dropWhile isPyWsByte).reverse
  let (sign, ds) : ℤ × List ℕ :=
    match s with
    | 45 :: rest => (-1, rest)
    | 43 :: rest => (1, rest)
    | other => (1, other)
  if ds ≠ [] ∧ ds.all (fun b => 48 ≤ b ∧ b ≤ 57) then
    .ok (sign * (ds.foldl (fun acc b => acc * 10 + (b - 48)) 0 : ℤ))
  else .error .valueError

/-- One step of the byte scan: if the key occurs, extract the integer
between the end of the key and the following `,` (else `}`, else the end of
the buffer minus one byte) and add it to the accumulator. -/
def scanKeyStep (bs : List ℕ) (key : String) (acc : ℚ) : Except PyErr ℚ :=
  let pat := strBytes key
  if (dropAfterSub pat bs).isSome then
    let start := ((bytesFind bs pat 0) + pat.length).toNat
    let stop :=
      let c := bytesFind bs [44] start      -- b','
      if c = -1 then bytesFind bs [125] start  -- b'}'
      else c
    match pyIntBytes (pySlice bs start stop) with
    | .ok n => .ok (acc + n)
    | .error e => .error e
  else .ok acc

/-- The fallback over the concatenated raw bytes (run when the token count
is zero at end of stream): scan `"prompt_eval_count":` then `"eval_count":`
inside one `try`, so a failure keeps whatever was already accumulated. -/
def byteScanTokens (bs : List ℕ) (tc : ℚ) : ℚ :=
  match scanKeyStep bs "\"prompt_eval_count\":" tc with
  | .error _ => tc
  | .ok tc1 =>
    match scanKeyStep bs "\"eval_count\":" tc1 with
    | .error _ => tc1
    | .ok tc2 => tc2

/-- End-of-stream token resolution (the `finally` block of `generate`):
`final_token_count` overrides the running sum; a zero result triggers the
byte scan over the collected raw bytes. -/
def streamFinalTokens (st : GenSt) : ℚ :=
  let tc := match st.final_token_count with
    | some f => f
    | none => st.token_count
  if tc = 0 then byteScanTokens st.collected_content.flatten tc else tc

/-- The token count committed for a stream with the given upstream chunks:
run the tee, then resolve. -/
def committedTokens (chunks : List (List ℕ)) : ℚ :=
  let (_, stF, _) := runChunks GenSt.initial chunks
  streamFinalTokens stF

/-- The downstream bytes of a stream with the given upstream chunks. -/
def streamYieldBytes (chunks : List (List ℕ)) : List ℕ :=
  (runChunks GenSt.initial chunks).1.flatten

/-! ### The `model_request` route handler

`model_request` is embedded as two functions according to the streaming
flag the handler computes from the request body (`request_data.get
("stream", False)`); the upstream interaction is a parameter.  The
selection step and its `except Exception` wrapper (which converts every
selector failure, including the 404 `HTTPException`, into a 503) are shared.
`(t1 - t0) * 1000` is the measured `resp_time` in milliseconds. -/

/-- Upstream outcome of the proxied request: a transport-level exception of
the HTTP client, or a response with a status and a body. -/
inductive UnaryUpstream where
  | requestError
  | response (status : ℕ) (content : List ℕ)
  deriving DecidableEq, Repr

inductive StreamUpstream where
  | requestError
  | response (status : ℕ) (chunks : List (List ℕ))
  deriving DecidableEq, Repr

/-- What the caller observes: a verbatim upstream response, or an
`HTTPException` with a status. -/
inductive Surfaced where
  | resp (status : ℕ) (body : List ℕ)
  | httpErr (status : ℕ)
  deriving DecidableEq, Repr

/-- The unary token extraction (source lines 290–306): the
`prompt_eval_count` byte scan, then `if "usage" in data` where `data` is an
unbound local — an unconditional `NameError`. -/
def unaryTokenExtract (content : List ℕ) : Except PyErr ℚ := do
  let _tc ← scanKeyStep content "\"prompt_eval_count\":" 0
  .error .nameError

/-- HTTP status surfaced for an exception escaping the inner handlers:
`HTTPException`s re-raise unchanged, everything else becomes 500
(`内部服务器错误`). -/
def surfaceStatus : PyErr → ℕ
  | .httpError s => s
  | _ => 500

/-- The unary branch of `model_request`: select (503 on any selector
failure), forward, extract tokens (which always raises), and fall into the
outer handler, which commits with `instance_id` — the `host:port` node id,
not the instance name — and re-surfaces the error. -/
def model_request_unary (lb : ModelLB) (model : String) (up : UnaryUpstream)
    (t0 t1 : ℚ) : Surfaced × ModelLB :=
  match get_next_instance lb model with
  | (.error _, lb1) => (.httpErr 503, lb1)
  | (.ok (node_id, instance_id), lb1) =>
    let _ := node_id
    let rt := (t1 - t0) * 1000
    match up with
    | .requestError =>
      -- `except httpx.RequestError` → HTTPException(502) → outer commit & re-raise
      (.httpErr 502, update_instance_metrics lb1 model instance_id rt true 0 t1)
    | .response status content =>
      match unaryTokenExtract content with
      | .ok tc =>
        -- dead code in the source (the extraction always raises); kept for shape
        (.resp status content,
         update_instance_metrics lb1 model instance_id rt (status ≥ 400) tc t1)
      | .error e =>
        (.httpErr (surfaceStatus e),
         update_instance_metrics lb1 model instance_id rt true 0 t1)

/-- The streaming branch of `model_request`.  A non-200 upstream status
raises `HTTPException(status)`, which the inner `except Exception` rewraps
as a 500 before the outer handler commits (with `instance_id`) and
re-raises.  A 200 response streams through the tee; the final commit uses
`node_id` (the instance name) and the tee's token count, with
`is_error = error_occurred or status ≥ 400`.  Returns the surfaced status,
the bytes yielded downstream, and the final state. -/
def model_request_stream (lb : ModelLB) (model : String) (up : StreamUpstream)
    (t0 t1 : ℚ) : ℕ × List (List ℕ) × ModelLB :=
  match get_next_instance lb model with
  | (.error _, lb1) => (503, [], lb1)
  | (.ok (node_id, instance_id), lb1) =>
    let rt := (t1 - t0) * 1000
    match up with
    | .requestError =>
      -- `requests` exceptions are not `httpx.RequestError`: they hit the
      -- generic `except Exception` → HTTPException(500) → outer commit & re-raise
      (500, [], update_instance_metrics lb1 model instance_id rt true 0 t1)
    | .response status chunks =>
      if status ≠ 200 then
        (500, [], update_instance_metrics lb1 model instance_id rt true 0 t1)
      else
        let (ys, stF, errored) := runChunks GenSt.initial chunks
        let rt2 := (⌈(t1 - t0) * 1000 * 100⌉ : ℚ) / 100
        (200, ys,
         update_instance_metrics lb1 model node_id rt2
           (errored || status ≥ 400) (streamFinalTokens stF) t1)

/-! ### Concrete scenarios -/

deriving instance DecidableEq for Except

/-- The S1 configuration: model `m`, instances `A(w=3)` and `B(w=1)`. -/
def swrrConfig : ModelConfig :=
  [("m", [{ ip := "http://10.0.0.1:8000", name := "A", initial_weight := 3 },
          { ip := "http://10.0.0.2:8000", name := "B", initial_weight := 1 }])]

/-- The names picked by `k` consecutive selects (stopping on a failure). -/
def selectSeq : ℕ → ModelLB → List String
  | 0, _ => []
  | k + 1, lb =>
    match get_next_instance lb "m" with
    | (.ok (name, _), lb') => name :: selectSeq k lb'
    | (.error _, _) => []

/-- Two default-weight instances of model `m`. -/
def pairConfig : ModelConfig :=
  [("m", [{ ip := "http://10.0.0.1:8000", name := "A" },
          { ip := "http://10.0.0.2:8000", name := "B" }])]

/-- One default-weight instance of model `m`. -/
def singleConfig : ModelConfig :=
  [("m", [{ ip := "http://10.0.0.1:8000", name := "A" }])]

/-- One select (won by `A`) followed by four error commits against `B`:
`B` enters `WARNING` while `A` stays `HEALTHY` with
`current_weight = -40`. -/
def drainedLB : ModelLB :=
  let lb0 := initializeLB pairConfig 0
  let lb1 := (get_next_instance lb0 "m").2
  let lb2 := update_instance_metrics lb1 "m" "B" 100 true 0 1
  let lb3 := update_instance_metrics lb2 "m" "B" 100 true 0 2
  let lb4 := update_instance_metrics lb3 "m" "B" 100 true 0 3
  update_instance_metrics lb4 "m" "B" 100 true 0 4

/-! ### Association-list and selection-loop lemmas -/

theorem alookup_aset_self (k : String) (f : α → α) (l : List (String × α)) :
    alookup k (aset k f l) = (alookup k l).map f := by
  induction l with
  | nil => rfl
  | cons p rest ih =>
    by_cases h : p.1 = k
    · simp [alookup, aset, List.find?, h]
    · simpa [alookup, aset, List.find?, h] using ih

theorem aset_of_not_mem (k : String) (f : α → α) (l : List (String × α))
    (h : k ∉ l.map Prod.fst) : aset k f l = l := by
  induction l with
  | nil => rfl
  | cons p rest ih =>
    simp only [List.map_cons, List.mem_cons] at h
    push_neg at h
    have hrest := ih h.2
    simp only [aset] at hrest ⊢
    rw [List.map_cons, if_neg (fun hh => h.1 hh.symm), hrest]

theorem selectLoop_keys (nodes : List (String × NodeInfo)) (acc : SelAcc) :
    (selectLoop nodes acc).1.map Prod.fst = nodes.map Prod.fst := by
  induction nodes generalizing acc with
  | nil => rfl
  | cons e rest ih =>
    simp only [selectLoop]
    have hkey : (selectStep e acc).1.1 = e.1 := by
      simp only [selectStep]
      split <;> [skip; split] <;> rfl
    simp [hkey, ih]

/-- Sum of `current_weight` over the healthy entries. -/
def healthyCurrentSum (nodes : List (String × NodeInfo)) : ℚ :=
  (nodes.map (fun p =>
    if p.2.status = .healthy then p.2.w.current_weight else 0)).sum

theorem selectLoop_cons (e : String × NodeInfo) (rest : List (String × NodeInfo))
    (acc : SelAcc) :
    selectLoop (e :: rest) acc =
      ((selectStep e acc).1 :: (selectLoop rest (selectStep e acc).2).1,
       (selectLoop rest (selectStep e acc).2).2) := rfl

/-- `selectStep` does not change an entry's key or status. -/
theorem selectStep_key_status (e : String × NodeInfo) (acc : SelAcc) :
    (selectStep e acc).1.1 = e.1 ∧ (selectStep e acc).1.2.status = e.2.status := by
  simp only [selectStep]
  split
  · exact ⟨rfl, rfl⟩
  · split <;> exact ⟨rfl, rfl⟩

/-- The healthy-sum contribution of the processed entry equals the growth
of the running `total`. -/
theorem selectStep_entry (e : String × NodeInfo) (acc : SelAcc) :
    (if (selectStep e acc).1.2.status = .healthy then
        (selectStep e acc).1.2.w.current_weight else 0) =
      (selectStep e acc).2.total - acc.total := by
  simp only [selectStep]
  split
  · next hh => simp [hh]
  · next hh =>
    rw [not_ne_iff] at hh
    split <;> simp [hh]

theorem selectLoop_total (nodes : List (String × NodeInfo)) (acc : SelAcc) :
    healthyCurrentSum (selectLoop nodes acc).1 =
      (selectLoop nodes acc).2.total - acc.total := by
  induction nodes generalizing acc with
  | nil => simp [selectLoop, healthyCurrentSum]
  | cons e rest ih =>
    rw [selectLoop_cons]
    simp only [healthyCurrentSum, List.map_cons, List.sum_cons]
    have h1 := selectStep_entry e acc
    have h2 := ih (selectStep e acc).2
    simp only [healthyCurrentSum] at h2
    rw [h1, h2]
    ring

/-- The incremented entry of a healthy node. -/
def bumpEntry (e : String × NodeInfo) : String × NodeInfo :=
  (e.1, { e.2 with w := { e.2.w with
    current_weight := e.2.w.current_weight + e.2.w.effective_weight } })

theorem selectStep_skip (e : String × NodeInfo) (acc : SelAcc)
    (hh : ¬ e.2.status = .healthy) : selectStep e acc = (e, acc) := by
  simp [selectStep, hh]

theorem selectStep_hit (e : String × NodeInfo) (acc : SelAcc)
    (hh : e.2.status = .healthy)
    (hgt : e.2.w.current_weight + e.2.w.effective_weight > acc.best_weight) :
    selectStep e acc =
      (bumpEntry e,
       { total := acc.total + (e.2.w.current_weight + e.2.w.effective_weight),
         best := some e.2.node_id, get_node_id := e.1,
         best_weight := e.2.w.current_weight + e.2.w.effective_weight }) := by
  simp only [selectStep, hh, bumpEntry]
  simp [hgt]

theorem selectStep_miss (e : String × NodeInfo) (acc : SelAcc)
    (hh : e.2.status = .healthy)
    (hgt : ¬ e.2.w.current_weight + e.2.w.effective_weight > acc.best_weight) :
    selectStep e acc =
      (bumpEntry e,
       { acc with total := acc.total +
          (e.2.w.current_weight + e.2.w.effective_weight) }) := by
  simp only [selectStep, hh, bumpEntry]
  simp [hgt]

/-- Once a best node is recorded it is never discarded. -/
theorem selectLoop_none_of_none (nodes : List (String × NodeInfo)) (acc : SelAcc)
    (h : (selectLoop nodes acc).2.best = none) : acc.best = none := by
  induction nodes generalizing acc with
  | nil => exact h
  | cons e rest ih =>
    rw [selectLoop_cons] at h
    have hstep := ih _ h
    by_cases hh : e.2.status = .healthy
    · by_cases hgt :
          e.2.w.current_weight + e.2.w.effective_weight > acc.best_weight
      · rw [selectStep_hit e acc hh hgt] at hstep
        exact absurd hstep (by simp)
      · rw [selectStep_miss e acc hh hgt] at hstep
        exact hstep
    · rw [selectStep_skip e acc hh] at hstep
      exact hstep

/-- The selection fails exactly when no healthy node's incremented
`current_weight` beats the (non-negative) running best weight. -/
theorem selectLoop_none_iff (nodes : List (String × NodeInfo)) (acc : SelAcc)
    (hbw : 0 ≤ acc.best_weight) :
    (selectLoop nodes acc).2.best = none ↔
      (acc.best = none ∧ ∀ p ∈ nodes, p.2.status = .healthy →
        p.2.w.current_weight + p.2.w.effective_weight ≤ acc.best_weight) := by
  induction nodes generalizing acc with
  | nil => simp [selectLoop]
  | cons e rest ih =>
    rw [selectLoop_cons]
    by_cases hh : e.2.status = .healthy
    · by_cases hgt :
          e.2.w.current_weight + e.2.w.effective_weight > acc.best_weight
      · rw [selectStep_hit e acc hh hgt]
        constructor
        · intro h
          exact absurd (selectLoop_none_of_none _ _ h) (by simp)
        · rintro ⟨-, hall⟩
          exact absurd (hall e (by simp) hh) (by linarith)
      · rw [selectStep_miss e acc hh hgt]
        rw [ih _ (by simpa using hbw)]
        constructor
        · rintro ⟨h1, h2⟩
          refine ⟨h1, ?_⟩
          intro p hp hps
          rcases List.mem_cons.mp hp with rfl | hp'
          · simpa using le_of_not_lt hgt
          · exact h2 p hp' hps
        · rintro ⟨h1, h2⟩
          exact ⟨h1, fun p hp hps => h2 p (List.mem_cons_of_mem _ hp) hps⟩
    · rw [selectStep_skip e acc hh, ih _ hbw]
      constructor
      · rintro ⟨h1, h2⟩
        refine ⟨h1, fun p hp hps => ?_⟩
        rcases List.mem_cons.mp hp with rfl | hp'
        · exact absurd hps hh
        · exact h2 p hp' hps
      · rintro ⟨h1, h2⟩
        exact ⟨h1, fun p hp hps => h2 p (List.mem_cons_of_mem _ hp) hps⟩

/-- The winner, when the loop changes it, is a healthy entry of the output
list carrying the final `get_node_id` as its key. -/
theorem selectLoop_winner (nodes : List (String × NodeInfo)) (acc : SelAcc) :
    ((selectLoop nodes acc).2.best = acc.best ∧
     (selectLoop nodes acc).2.get_node_id = acc.get_node_id) ∨
    ∃ p ∈ (selectLoop nodes acc).1,
      p.1 = (selectLoop nodes acc).2.get_node_id ∧ p.2.status = .healthy := by
  induction nodes generalizing acc with
  | nil => left; exact ⟨rfl, rfl⟩
  | cons e rest ih =>
    rw [selectLoop_cons]
    rcases ih (selectStep e acc).2 with ⟨hb, hg⟩ | ⟨p, hp, hk, hs⟩
    · by_cases hh : e.2.status = .healthy
      · by_cases hgt :
            e.2.w.current_weight + e.2.w.effective_weight > acc.best_weight
        · right
          rw [selectStep_hit e acc hh hgt] at hb hg ⊢
          refine ⟨bumpEntry e, by simp, ?_, hh⟩
          simp only [List.length_cons, hg, bumpEntry]
        · left
          rw [selectStep_miss e acc hh hgt] at hb hg ⊢
          exact ⟨hb, hg⟩
      · left
        rw [selectStep_skip e acc hh] at hb hg ⊢
        exact ⟨hb, hg⟩
    · right
      exact ⟨p, List.mem_cons_of_mem _ hp, hk, hs⟩

/-- Decrementing `current_weight` by `t` at a healthy key present once
drops the healthy sum by `t`. -/
theorem healthyCurrentSum_aset (l : List (String × NodeInfo)) (k : String)
    (t : ℚ) (f : NodeInfo → NodeInfo)
    (hf : ∀ n, (f n).status = n.status ∧
      (f n).w.current_weight = n.w.current_weight - t)
    (hnd : (l.map Prod.fst).Nodup)
    (p : String × NodeInfo) (hp : p ∈ l) (hk : p.1 = k)
    (hh : p.2.status = .healthy) :
    healthyCurrentSum (aset k f l) = healthyCurrentSum l - t := by
  induction l with
  | nil => cases hp
  | cons q rest ih =>
    simp only [List.map_cons, List.nodup_cons] at hnd
    rcases List.mem_cons.mp hp with rfl | hp'
    · have hknotin : k ∉ rest.map Prod.fst := by rw [← hk]; exact hnd.1
      simp only [aset, List.map_cons, if_pos hk]
      have : List.map (fun p => if p.1 = k then (p.1, f p.2) else p) rest = rest := by
        simpa [aset] using aset_of_not_mem k f rest hknotin
      rw [this]
      simp only [healthyCurrentSum, List.map_cons, List.sum_cons,
        (hf p.2).1, hh, if_pos, (hf p.2).2]
      ring
    · have hq : q.1 ≠ k := by
        intro hqk
        exact hnd.1 (hqk ▸ hk ▸ List.mem_map_of_mem Prod.fst hp')
      simp only [aset, List.map_cons, if_neg hq]
      have := ih hnd.2 hp'
      simp only [aset] at this
      simp only [healthyCurrentSum, List.map_cons, List.sum_cons] at this ⊢
      rw [show (List.map _ (List.map _ rest)).sum = _ from by
        simpa [healthyCurrentSum] using this]
      ring

/-- Entries of the loop output correspond to input entries with the same
key and status. -/
theorem selectLoop_mem_transfer (nodes : List (String × NodeInfo)) (acc : SelAcc)
    (p' : String × NodeInfo) (hp : p' ∈ (selectLoop nodes acc).1) :
    ∃ p ∈ nodes, p.1 = p'.1 ∧ p.2.status = p'.2.status := by
  induction nodes generalizing acc with
  | nil => cases hp
  | cons e rest ih =>
    rw [selectLoop_cons] at hp
    rcases List.mem_cons.mp hp with rfl | hp'
    · exact ⟨e, by simp, ((selectStep_key_status e acc).1).symm,
        ((selectStep_key_status e acc).2).symm⟩
    · obtain ⟨p, hpm, hk, hs⟩ := ih _ hp'
      exact ⟨p, List.mem_cons_of_mem _ hpm, hk, hs⟩

/-- Reduction of `get_next_instance` on a configured model whose selection
loop found no winner. -/
theorem get_next_instance_none (lb : ModelLB) (model : String)
    (nodes₀ : List (String × NodeInfo))
    (h0 : alookup model lb.service_metrics = some nodes₀)
    (hb : (selectLoop nodes₀ ⟨0, none, "", 0⟩).2.best = none) :
    get_next_instance lb model =
      (.error .noHealthyNode,
       ⟨aset model (fun _ => (selectLoop nodes₀ ⟨0, none, "", 0⟩).1)
          lb.service_metrics⟩) := by
  unfold get_next_instance
  rw [h0]
  simp only [hb]

/-- Reduction of `get_next_instance` on a configured model with a winner. -/
theorem get_next_instance_some (lb : ModelLB) (model : String)
    (nodes₀ : List (String × NodeInfo)) (b : String)
    (h0 : alookup model lb.service_metrics = some nodes₀)
    (hb : (selectLoop nodes₀ ⟨0, none, "", 0⟩).2.best = some b) :
    get_next_instance lb model =
      (.ok ((selectLoop nodes₀ ⟨0, none, "", 0⟩).2.get_node_id, b),
       ⟨aset model (fun _ =>
          aset (selectLoop nodes₀ ⟨0, none, "", 0⟩).2.get_node_id
            (fun n => { n with
              w := { n.w with current_weight :=
                n.w.current_weight - (selectLoop nodes₀ ⟨0, none, "", 0⟩).2.total }
              active_requests := n.active_requests + 1 })
            (selectLoop nodes₀ ⟨0, none, "", 0⟩).1)
          lb.service_metrics⟩) := by
  unfold get_next_instance
  rw [h0]
  simp only [hb]

/-- After every successful selection the healthy `current_weight`s of the
model sum to zero: the decrement `total` is exactly the healthy
post-increment sum. -/
theorem select_healthy_sum_zero (lb : ModelLB) (model nid bid : String)
    (lb' : ModelLB) (nodes₀ : List (String × NodeInfo))
    (h0 : alookup model lb.service_metrics = some nodes₀)
    (hnd : (nodes₀.map Prod.fst).Nodup)
    (hsel : get_next_instance lb model = (.ok (nid, bid), lb')) :
    ∃ nodes', alookup model lb'.service_metrics = some nodes' ∧
      healthyCurrentSum nodes' = 0 := by
  cases hb : (selectLoop nodes₀ ⟨0, none, "", 0⟩).2.best with
  | none =>
    rw [get_next_instance_none lb model nodes₀ h0 hb] at hsel
    exact absurd (congrArg Prod.fst hsel) (by simp)
  | some b =>
    rw [get_next_instance_some lb model nodes₀ b h0 hb] at hsel
    obtain ⟨hres, hlb⟩ := Prod.mk.injEq .. ▸ hsel
    set gid := (selectLoop nodes₀ ⟨0, none, "", 0⟩).2.get_node_id with hgid
    set total := (selectLoop nodes₀ ⟨0, none, "", 0⟩).2.total with htotal
    set nodes₁ := (selectLoop nodes₀ ⟨0, none, "", 0⟩).1 with hnodes₁
    refine ⟨aset gid
      (fun n => { n with
        w := { n.w with current_weight := n.w.current_weight - total }
        active_requests := n.active_requests + 1 }) nodes₁, ?_, ?_⟩
    · rw [← hlb]
      rw [alookup_aset_self, h0]
      rfl
    · have hwin : ∃ p ∈ nodes₁, p.1 = gid ∧ p.2.status = .healthy := by
        rcases selectLoop_winner nodes₀ ⟨0, none, "", 0⟩ with ⟨hbb, -⟩ | hex
        · rw [hb] at hbb; cases hbb
        · exact hex
      obtain ⟨p, hpm, hk, hh⟩ := hwin
      have hnd₁ : (nodes₁.map Prod.fst).Nodup := by
        rw [hnodes₁, selectLoop_keys]; exact hnd
      rw [healthyCurrentSum_aset nodes₁ gid total
        (fun n => { n with
          w := { n.w with current_weight := n.w.current_weight - total }
          active_requests := n.active_requests + 1 })
        (fun n => ⟨rfl, rfl⟩) hnd₁ p hpm hk hh]
      have := selectLoop_total nodes₀ ⟨0, none, "", 0⟩
      rw [← hnodes₁, ← htotal] at this
      simp only at this
      rw [this]
      ring

/-! ### Claims C1 and C6: the selector -/

/-- C1 (counterexample).  The claim predicts that with two healthy instances
`A (w=3)` and `B (w=1)` and initial `currentWeight = [3, 1]`, eight
consecutive selects pick `A,A,B,A,A,A,B,A` (standard SWRR).  The code
instead computes the decrement `total` as the sum of the healthy
post-increment `currentWeight`s (not of the `effectiveWeight`s), which on
the very first select subtracts 8 instead of 4 from `A`, and yields
`A,B,A,A,A,B,A,A`. -/
theorem C1_swrr_counterexample :
    selectSeq 8 (initializeLB swrrConfig 0) =
      ["A", "B", "A", "A", "A", "B", "A", "A"] ∧
    selectSeq 8 (initializeLB swrrConfig 0) ≠
      ["A", "A", "B", "A", "A", "A", "B", "A"] := by
  constructor <;> with_unfolding_all decide

/-- C1 (amended).  For every `select` on a model with healthy instances the
selector adds `effectiveWeight[i]` to `currentWeight[i]` for every healthy
instance `i` and picks the first instance whose post-increment
`currentWeight` is maximal among those exceeding `0`; but the decrement
applied to the winner is `total` = the sum of the healthy post-increment
`currentWeight`s, not the sum of the `effectiveWeight`s.  Consequently
after every successful select the healthy `currentWeight`s sum to `0` (so
with an unchanged healthy set the decrement equals `Σ effectiveWeight`
only from the second select on), and for `A (w=3)`, `B (w=1)` the eight
selects pick `A,B,A,A,A,B,A,A` instead of the claimed `A,A,B,A,A,A,B,A`. -/
theorem C1_swrr_amended :
    (∀ lb model nid bid lb' nodes₀,
      alookup model lb.service_metrics = some nodes₀ →
      (nodes₀.map Prod.fst).Nodup →
      get_next_instance lb model = (.ok (nid, bid), lb') →
      ∃ nodes', alookup model lb'.service_metrics = some nodes' ∧
        healthyCurrentSum nodes' = 0) ∧
    selectSeq 8 (initializeLB swrrConfig 0) =
      ["A", "B", "A", "A", "A", "B", "A", "A"] :=
  ⟨fun lb model nid bid lb' nodes₀ h0 hnd hsel =>
    select_healthy_sum_zero lb model nid bid lb' nodes₀ h0 hnd hsel,
   by with_unfolding_all decide⟩

/-- Witness for `C1_swrr_amended` at a concrete input: the very first select
on the S1 configuration picks `A` and leaves the healthy current weights
summing to zero. -/
theorem C1_swrr_amended_witness :
    ∃ nodes', alookup "m"
      ((get_next_instance (initializeLB swrrConfig 0) "m").2).service_metrics
        = some nodes' ∧ healthyCurrentSum nodes' = 0 :=
  C1_swrr_amended.1 (initializeLB swrrConfig 0) "m" "A" "10.0.0.1:8000"
    (get_next_instance (initializeLB swrrConfig 0) "m").2
    ((alookup "m" (initializeLB swrrConfig 0).service_metrics).getD [])
    (by with_unfolding_all decide)
    (by with_unfolding_all decide)
    (by with_unfolding_all decide)

/-- C6 (counterexample).  The claim says `select` on a configured model
fails with `NoHealthyInstance` only when no instance is `HEALTHY`.  In the
reachable state `drainedLB` (one select won by `A`, then four error
commits demoting `B` to `WARNING`), `A` is still `HEALTHY` with
`currentWeight = -40`, yet the select fails with the 503
`NoHealthyInstance` error because the argmax ignores nodes whose
post-increment `currentWeight` is not strictly positive. -/
theorem C6_no_healthy_counterexample :
    (get_next_instance drainedLB "m").1 = .error .noHealthyNode ∧
    ((alookup "m" drainedLB.service_metrics).bind (alookup "A")).map
      (·.status) = some .healthy := by
  constructor <;> with_unfolding_all decide

/-- C6 (amended).  `select` on a configured model fails (with the 503
`NoHealthyInstance` error) if and only if every `HEALTHY` instance's
post-increment `currentWeight` (`currentWeight + effectiveWeight`) is `≤ 0`
— in particular whenever no instance is `HEALTHY`, but also in reachable
states with healthy instances of non-positive current weight.  When it
succeeds, the returned instance is one of the `HEALTHY` instances. -/
theorem C6_no_healthy_amended :
    ∀ lb model nodes₀,
      alookup model lb.service_metrics = some nodes₀ →
      (((get_next_instance lb model).1 = .error .noHealthyNode) ↔
        ∀ p ∈ nodes₀, p.2.status = .healthy →
          p.2.w.current_weight + p.2.w.effective_weight ≤ 0) ∧
      (∀ nid bid lb', get_next_instance lb model = (.ok (nid, bid), lb') →
        ∃ p ∈ nodes₀, p.1 = nid ∧ p.2.status = .healthy) := by
  intro lb model nodes₀ h0
  constructor
  · cases hb : (selectLoop nodes₀ ⟨0, none, "", 0⟩).2.best with
    | none =>
      rw [get_next_instance_none lb model nodes₀ h0 hb]
      have hiff := (selectLoop_none_iff nodes₀ ⟨0, none, "", 0⟩ le_rfl).mp hb
      simpa using fun p hp hs => hiff.2 p hp hs
    | some b =>
      rw [get_next_instance_some lb model nodes₀ b h0 hb]
      constructor
      · intro h; cases h
      · intro hall
        have : (selectLoop nodes₀ ⟨0, none, "", 0⟩).2.best = none :=
          (selectLoop_none_iff nodes₀ ⟨0, none, "", 0⟩ le_rfl).mpr
            ⟨rfl, fun p hp hs => hall p hp hs⟩
        rw [hb] at this; cases this
  · intro nid bid lb' hsel
    cases hb : (selectLoop nodes₀ ⟨0, none, "", 0⟩).2.best with
    | none =>
      rw [get_next_instance_none lb model nodes₀ h0 hb] at hsel
      exact absurd (congrArg Prod.fst hsel) (by simp)
    | some b =>
      rw [get_next_instance_some lb model nodes₀ b h0 hb] at hsel
      have hnid : (selectLoop nodes₀ ⟨0, none, "", 0⟩).2.get_node_id = nid := by
        have hinj := congrArg Prod.fst hsel
        simp only [Except.ok.injEq, Prod.mk.injEq] at hinj
        exact hinj.1
      rcases selectLoop_winner nodes₀ ⟨0, none, "", 0⟩ with ⟨hbb, -⟩ | hex
      · rw [hb] at hbb; cases hbb
      · obtain ⟨p', hp', hk', hs'⟩ := hex
        obtain ⟨p, hpm, hk, hs⟩ :=
          selectLoop_mem_transfer nodes₀ ⟨0, none, "", 0⟩ p' hp'
        exact ⟨p, hpm, by rw [hk, hk', hnid], by rw [hs, hs']⟩

/-- Witness for `C6_no_healthy_amended`: on the freshly initialized pair
configuration, the select does not fail and the winner is healthy. -/
theorem C6_no_healthy_amended_witness :
    ∃ p ∈ (alookup "m" (initializeLB pairConfig 0).service_metrics).getD [],
      p.1 = "A" ∧ p.2.status = .healthy :=
  (C6_no_healthy_amended (initializeLB pairConfig 0) "m"
      ((alookup "m" (initializeLB pairConfig 0).service_metrics).getD [])
      (by with_unfolding_all decide)).2 "A" "10.0.0.1:8000"
    (get_next_instance (initializeLB pairConfig 0) "m").2
    (by with_unfolding_all decide)

/-! ### Claims C7 and C10: the weight controller (`commit`) -/

/-- The node stored for `(model, nid)` in the state. -/
def lookupNode (lb : ModelLB) (model nid : String) : Option NodeInfo :=
  (alookup model lb.service_metrics).bind (alookup nid)

/-- Reduction of `update_instance_metrics` when model and node exist. -/
theorem update_instance_metrics_known (lb : ModelLB) (model nid : String)
    (rt : ℚ) (err : Bool) (tc now : ℚ)
    (nodes : List (String × NodeInfo)) (n : NodeInfo)
    (h0 : alookup model lb.service_metrics = some nodes)
    (h1 : alookup nid nodes = some n) :
    update_instance_metrics lb model nid rt err tc now =
      ⟨aset model (fun _ =>
        aset nid (fun _ =>
          setBalance (aset nid (fun _ => updateNodeCore n rt err tc now) nodes)
            (updateNodeCore n rt err tc now))
          (aset nid (fun _ => updateNodeCore n rt err tc now) nodes))
        lb.service_metrics⟩ := by
  unfold update_instance_metrics
  simp only [h0, h1]

theorem setBalance_w (l : List (String × NodeInfo)) (n : NodeInfo) :
    (setBalance l n).w = n.w := by
  simp only [setBalance]
  split <;> rfl

theorem setBalance_status (l : List (String × NodeInfo)) (n : NodeInfo) :
    (setBalance l n).status = n.status := by
  simp only [setBalance]
  split <;> rfl

theorem updateNodeCore_eff (n : NodeInfo) (rt : ℚ) (err : Bool) (tc now : ℚ) :
    (updateNodeCore n rt err tc now).w.effective_weight =
      if err then max 5 (n.w.effective_weight * (8/10))
      else min 100 (n.w.effective_weight * (105/100)) := by
  cases err <;> rfl

theorem updateNodeCore_failures (n : NodeInfo) (rt : ℚ) (err : Bool) (tc now : ℚ) :
    (updateNodeCore n rt err tc now).w.history_failures =
      if err then n.w.history_failures + 1 else 0 := by
  cases err <;> rfl

theorem updateNodeCore_status (n : NodeInfo) (rt : ℚ) (err : Bool) (tc now : ℚ) :
    (updateNodeCore n rt err tc now).status =
      if err = true ∧ n.w.history_failures + 1 > 3 then .warning
      else n.status := by
  cases err with
  | false => simp [updateNodeCore]
  | true =>
    by_cases h : n.w.history_failures + 1 > 3 <;>
      simp [updateNodeCore, h]

/-- The S2 scenario: `k` consecutive error commits on the single-instance
model, at wall times `1, …, k`. -/
def s2LB : ℕ → ModelLB
  | 0 => initializeLB singleConfig 0
  | k + 1 => update_instance_metrics (s2LB k) "m" "A" 100 true 0 (k + 1)

/-- C7.  Every commit on a known `(model, instance)` pair rescales the
effective weight (`max(5, ·0.8)` on errors, `min(100, ·1.05)` on
successes), counts consecutive failures (reset on success), and sets
`WARNING` exactly when the post-increment failure count exceeds 3; under
the reachable-state invariant (`HEALTHY` implies at most 3 recorded
failures) the status enters `WARNING` exactly on the 4th consecutive error
commit.  Starting from `effectiveWeight = 20`, four error commits yield
`16, 12.8, 10.24, 8.192`, with the status still `HEALTHY` after the 3rd
and `WARNING` with `historyFailures = 4` after the 4th. -/
theorem C7_weight_controller :
    (∀ lb model nid rt (err : Bool) (tc now : ℚ) nodes n,
      alookup model lb.service_metrics = some nodes →
      alookup nid nodes = some n →
      ∃ n', lookupNode (update_instance_metrics lb model nid rt err tc now)
          model nid = some n' ∧
        n'.w.effective_weight =
          (if err then max 5 (n.w.effective_weight * (8/10))
           else min 100 (n.w.effective_weight * (105/100))) ∧
        n'.w.history_failures = (if err then n.w.history_failures + 1 else 0) ∧
        n'.status = (if err = true ∧ n.w.history_failures + 1 > 3 then .warning
          else n.status) ∧
        (n.status = .healthy → n.w.history_failures ≤ 3 →
          (n'.status = .warning ↔ err = true ∧ n.w.history_failures = 3))) ∧
    ((lookupNode (s2LB 1) "m" "A").map (·.w.effective_weight) = some 16 ∧
     (lookupNode (s2LB 2) "m" "A").map (·.w.effective_weight) = some (64/5) ∧
     (lookupNode (s2LB 3) "m" "A").map (·.w.effective_weight) = some (256/25) ∧
     (lookupNode (s2LB 4) "m" "A").map (·.w.effective_weight) = some (1024/125) ∧
     (lookupNode (s2LB 3) "m" "A").map (·.status) = some .healthy ∧
     (lookupNode (s2LB 4) "m" "A").map (·.status) = some .warning ∧
     (lookupNode (s2LB 4) "m" "A").map (·.w.history_failures) = some 4) := by
  constructor
  · intro lb model nid rt err tc now nodes n h0 h1
    rw [update_instance_metrics_known lb model nid rt err tc now nodes n h0 h1]
    refine ⟨setBalance (aset nid (fun _ => updateNodeCore n rt err tc now) nodes)
      (updateNodeCore n rt err tc now), ?_, ?_, ?_, ?_, ?_⟩
    · simp [lookupNode, alookup_aset_self, h0, h1]
    · rw [setBalance_w, updateNodeCore_eff]
    · rw [setBalance_w, updateNodeCore_failures]
    · rw [setBalance_status, updateNodeCore_status]
    · intro hhealthy hle
      rw [setBalance_status, updateNodeCore_status]
      cases err with
      | false => simp [hhealthy]
      | true =>
        by_cases h3 : n.w.history_failures = 3
        · simp [h3]
        · have : ¬ n.w.history_failures + 1 > 3 := by omega
          simp [this, hhealthy, h3]
  · refine ⟨?_, ?_, ?_, ?_, ?_, ?_, ?_⟩ <;> with_unfolding_all decide

/-- The initial `InstanceState` of instance `A` of the single-instance
configuration, as `initialize` creates it. -/
def nodeA0 : NodeInfo :=
  { node_name := "A"
    ip_addr := "10.0.0.1"
    status := .healthy
    balance := .balanced
    load_rate := 0
    token_total := 0
    inference_time := 0
    weight := 20
    node_id := "10.0.0.1:8000"
    active_requests := 0
    request_count := 0
    error_count := 0
    last_update := 0
    load_threshold := 100
    load_history := []
    w := { current_weight := 20, effective_weight := 20, history_failures := 0 } }

/-- Witness for `C7_weight_controller` at a concrete input: the first error
commit of the S2 scenario demotes `A`'s effective weight to 16. -/
theorem C7_weight_controller_witness :
    ∃ n', lookupNode (update_instance_metrics (initializeLB singleConfig 0)
        "m" "A" 100 true 0 1) "m" "A" = some n' ∧
      n'.w.effective_weight = 16 := by
  obtain ⟨n', h1, h2, -, -, -⟩ := C7_weight_controller.1
    (initializeLB singleConfig 0) "m" "A" 100 true 0 1
    [("A", nodeA0)] nodeA0
    (by with_unfolding_all decide) (by with_unfolding_all decide)
  refine ⟨n', h1, ?_⟩
  rw [h2]
  with_unfolding_all decide

/-- C10.  A `commit` (`update_instance_metrics`) that names an unknown model
or an instance identifier that is not a configured instance name of that
model (for example the `host:port` node id) returns silently and leaves
the whole Store unchanged — in particular no `activeRequests` counter is
decremented. -/
theorem C10_unknown_commit_noop :
    ∀ lb model nid (rt : ℚ) (err : Bool) (tc now : ℚ),
      (alookup model lb.service_metrics = none ∨
       ∃ nodes, alookup model lb.service_metrics = some nodes ∧
         alookup nid nodes = none) →
      update_instance_metrics lb model nid rt err tc now = lb := by
  intro lb model nid rt err tc now h
  unfold update_instance_metrics
  rcases h with h | ⟨nodes, h1, h2⟩
  · simp only [h]
  · simp only [h1, h2]

/-- Witness for `C10_unknown_commit_noop`: a commit against the `host:port`
identifier of instance `A` (not its name) is a no-op. -/
theorem C10_unknown_commit_noop_witness :
    update_instance_metrics (initializeLB pairConfig 0) "m" "10.0.0.1:8000"
      5 true 0 1 = initializeLB pairConfig 0 :=
  C10_unknown_commit_noop (initializeLB pairConfig 0) "m" "10.0.0.1:8000"
    5 true 0 1
    (.inr ⟨(alookup "m" (initializeLB pairConfig 0).service_metrics).getD [],
      by with_unfolding_all decide, by with_unfolding_all decide⟩)
/-! ### Claim C4: metrics snapshots -/

/-- None of the four randomized-if-zero display fields of a node is zero. -/
def NoZeroNode (n : NodeInfo) : Prop :=
  n.load_rate ≠ 0 ∧ n.token_total ≠ 0 ∧ n.inference_time ≠ 0 ∧ n.weight ≠ 0

instance (n : NodeInfo) : Decidable (NoZeroNode n) := by
  unfold NoZeroNode; infer_instance

/-- None of the eight randomized-if-zero aggregate fields is zero. -/
def NoZeroGlobal (g : GlobalView) : Prop :=
  g.node_count ≠ 0 ∧ g.healthy_count ≠ 0 ∧ g.lb_degree ≠ 0 ∧
  g.token_total ≠ 0 ∧ g.avg_inference ≠ 0 ∧ g.avg_load ≠ 0 ∧
  g.active_services ≠ 0 ∧ g.throughput ≠ 0

instance (g : GlobalView) : Decidable (NoZeroGlobal g) := by
  unfold NoZeroGlobal; infer_instance

theorem randomIfZero_ne (rng : ℕ → ℚ) (i : ℕ) (v : ℚ) (h : v ≠ 0) :
    randomIfZero rng i v = (v, i) := by
  simp [randomIfZero, h]

theorem combinedNodeView_det (rng : ℕ → ℚ) (i : ℕ) (n : NodeInfo)
    (h : NoZeroNode n) : combinedNodeView rng i n = (nodeView n, i) := by
  obtain ⟨h1, h2, h3, h4⟩ := h
  simp only [combinedNodeView, randomIfZero_ne _ _ _ h1,
    randomIfZero_ne _ _ _ h2, randomIfZero_ne _ _ _ h3,
    randomIfZero_ne _ _ _ h4]
  rfl

theorem combinedNodeViews_det (rng : ℕ → ℚ) (i : ℕ) (l : List NodeInfo)
    (h : ∀ n ∈ l, NoZeroNode n) :
    combinedNodeViews rng i l = (l.map nodeView, i) := by
  induction l generalizing i with
  | nil => rfl
  | cons n rest ih =>
    simp only [combinedNodeViews, combinedNodeView_det rng i n (h n (by simp)),
      ih _ (fun m hm => h m (List.mem_cons_of_mem _ hm)), List.map_cons]

theorem combinedGlobal_det (rng : ℕ → ℚ) (i : ℕ) (g : GlobalView)
    (h : NoZeroGlobal g) : combinedGlobal rng i g = (g, i) := by
  obtain ⟨h1, h2, h3, h4, h5, h6, h7, h8⟩ := h
  simp only [combinedGlobal, randomIfZero_ne _ _ _ h1,
    randomIfZero_ne _ _ _ h2, randomIfZero_ne _ _ _ h3,
    randomIfZero_ne _ _ _ h4, randomIfZero_ne _ _ _ h5,
    randomIfZero_ne _ _ _ h6, randomIfZero_ne _ _ _ h7,
    randomIfZero_ne _ _ _ h8]

theorem combinedAux_det (rng : ℕ → ℚ) (now : ℚ) (i : ℕ)
    (ms : List (String × List (String × NodeInfo)))
    (h : ∀ p ∈ ms, (∀ n ∈ sortNodes p.2, NoZeroNode n) ∧
      NoZeroGlobal (globalOf p.2 now)) :
    combinedAux rng now i ms =
      ((ms.map (fun p => (p.1, globalOf p.2 now)),
        ms.map (fun p => (p.1, (sortNodes p.2).map nodeView))), i) := by
  induction ms generalizing i with
  | nil => rfl
  | cons p rest ih =>
    obtain ⟨hn, hg⟩ := h p (by simp)
    simp only [combinedAux, combinedNodeViews_det rng i _ hn,
      combinedGlobal_det rng i _ hg,
      ih _ (fun q hq => h q (List.mem_cons_of_mem _ hq)), List.map_cons]

/-- C4 (counterexample).  The claim says two snapshot reads with no
intervening mutation are equal.  On a freshly initialized store the
combined snapshot (`get_combined_metrics`) replaces each zero-valued
display field with a freshly drawn random value, so two reads at the same
wall time with different random draws differ. -/
theorem C4_snapshot_counterexample :
    get_combined_metrics (initializeLB singleConfig 0) 0 (fun _ => 1) ≠
      get_combined_metrics (initializeLB singleConfig 0) 0 (fun _ => 2) := by
  with_unfolding_all decide

/-- C4 (amended).  The per-node snapshot `get_service_metrics` is a pure
function of the Store, but the combined snapshot additionally depends on
the wall clock and on the random stream: it substitutes a fresh random
draw for every zero-valued display field.  Two combined reads at the same
wall time agree for every random stream exactly on stores without
zero-valued display fields, where the combined node metrics coincide with
the per-node snapshot. -/
theorem C4_snapshot_amended :
    ∀ lb (now : ℚ) (r1 r2 : ℕ → ℚ),
      (∀ p ∈ lb.service_metrics, (∀ n ∈ sortNodes p.2, NoZeroNode n) ∧
        NoZeroGlobal (globalOf p.2 now)) →
      get_combined_metrics lb now r1 = get_combined_metrics lb now r2 ∧
      (get_combined_metrics lb now r1).node_metrics = get_service_metrics lb := by
  intro lb now r1 r2 h
  unfold get_combined_metrics
  rw [combinedAux_det r1 now 0 _ h, combinedAux_det r2 now 0 _ h]
  exact ⟨rfl, rfl⟩

/-- A store whose display fields are all non-zero (one model, one node). -/
def busyLB : ModelLB :=
  ⟨[("m", [("A",
    { node_name := "A"
      ip_addr := "10.0.0.1"
      status := .healthy
      balance := .balanced
      load_rate := 1/2
      token_total := 5
      inference_time := 3
      weight := 20
      node_id := "10.0.0.1:8000"
      active_requests := 0
      request_count := 2
      error_count := 0
      last_update := 100
      load_threshold := 100
      load_history := []
      w := { current_weight := 20, effective_weight := 20,
             history_failures := 0 } })])]⟩

/-- Witness for `C4_snapshot_amended`: on `busyLB` at time 100 two
combined reads with different random streams agree. -/
theorem C4_snapshot_amended_witness :
    get_combined_metrics busyLB 100 (fun _ => 1) =
      get_combined_metrics busyLB 100 (fun _ => 2) ∧
    (get_combined_metrics busyLB 100 (fun _ => 1)).node_metrics =
      get_service_metrics busyLB :=
  C4_snapshot_amended busyLB 100 (fun _ => 1) (fun _ => 2)
    (by with_unfolding_all decide)

/-! ### Claims C8 and C9: the stream tee -/

/-- The C8 counterexample stream: one chunk with per-chunk eval counts
(summing to `B = 7`), one chunk whose object carries both
`metadata.usage.total_tokens = 50` and `usage.total_tokens = 9`. -/
def c8chunks : List (List ℕ) :=
  [strBytes "data: \x7b\"prompt_eval_count\":3,\"eval_count\":4\x7d\n",
   strBytes "data: \x7b\"metadata\":\x7b\"usage\":\x7b\"total_tokens\":50\x7d\x7d,\"usage\":\x7b\"total_tokens\":9\x7d\x7d\n"]

/-- C8 (counterexample).  The claim predicts `tokenCount = A = 50`
(`metadata.usage.total_tokens` preferred over `usage.total_tokens` and over
the per-chunk sum `B = 7`).  The code checks `metadata.usage` first but
then unconditionally overwrites `final_token_count` from a top-level
`usage`, committing 9 instead. -/
theorem C8_token_priority_counterexample :
    committedTokens c8chunks = 9 ∧ committedTokens c8chunks ≠ 50 := by
  constructor <;> with_unfolding_all decide

/-- C8 (amended).  Within a single parsed object a top-level
`usage.total_tokens` takes priority over `metadata.usage.total_tokens`
(the reverse of the claimed priority): an object carrying both commits the
`usage` value; `metadata.usage.total_tokens` takes effect only when the
object has no top-level `usage` key.  The accumulated
`prompt_eval_count + eval_count` sum is still ignored whenever a final
token count was set (the counterexample stream commits 9, not
`A = 50` or `B = 7`). -/
theorem C8_token_priority_amended :
    (∀ (st : GenSt) (a c : ℤ) (ea ec : ℕ),
      processData st (.jobj
        [("metadata", .jobj [("usage", .jobj [("total_tokens", .jnum a ea)])]),
         ("usage", .jobj [("total_tokens", .jnum c ec)])]) =
        .ok { st with final_token_count := some (JVal.numVal c ec) }) ∧
    (∀ (st : GenSt) (a : ℤ) (ea : ℕ),
      processData st (.jobj
        [("metadata", .jobj [("usage", .jobj [("total_tokens", .jnum a ea)])])]) =
        .ok { st with final_token_count := some (JVal.numVal a ea) }) ∧
    committedTokens c8chunks = 9 :=
  ⟨fun _ _ _ _ _ => rfl, fun _ _ _ => rfl, by with_unfolding_all decide⟩

/-- The S4 stream: an ignorable line, a per-chunk count line, a final
`usage.total_tokens` line. -/
def s4chunks : List (List ℕ) :=
  [strBytes "data: \x7b\"id\":\"x\"\x7d\n",
   strBytes "data: \x7b\"prompt_eval_count\":7,\"eval_count\":5\x7d\n",
   strBytes "data: \x7b\"usage\":\x7b\"total_tokens\":99\x7d\x7d\n"]

/-- A stream whose only `data: ` line parses as JSON to a bare number:
`"metadata" in 1` raises `TypeError` before the chunk is yielded. -/
def badStream : List (List ℕ) := [strBytes "data: 1\n"]

/-- C9 (counterexample).  The claim asserts byte passthrough for every
stream, in particular "whether lines parse as JSON [or not]".  A `data: `
line that parses to a JSON value that is not an object (here the number
`1`) raises an uncaught `TypeError` in the line parser before the chunk is
yielded, so downstream receives nothing. -/
theorem C9_stream_tee_counterexample :
    streamYieldBytes badStream ≠ badStream.flatten ∧
    streamYieldBytes badStream = [] ∧
    (runChunks GenSt.initial badStream).2.2 = true := by
  refine ⟨?_, ?_, ?_⟩ <;> with_unfolding_all decide

/-- C9 (amended).  Byte passthrough holds for every stream on which the
inline line parser raises no exception (in particular when every `data: `
line either fails JSON parsing or parses to an object of the expected
shape): the concatenation of the yielded chunks equals the concatenation
of the upstream chunks.  A line parsing to a non-object aborts the stream
before its chunk is yielded (see the counterexample). -/
theorem C9_stream_tee_amended :
    ∀ (chunks : List (List ℕ)) (st : GenSt),
      (runChunks st chunks).2.2 = false →
      (runChunks st chunks).1.flatten = chunks.flatten := by
  intro chunks
  induction chunks with
  | nil => intro st _; rfl
  | cons c rest ih =>
    intro st h
    by_cases hc : c = []
    · subst hc
      have he : runChunks st ([] :: rest) = runChunks st rest := rfl
      rw [he] at h ⊢
      rw [ih st h]
      simp
    · simp only [runChunks, if_neg hc] at h ⊢
      cases hpc : processChunk st c with
      | ok st' =>
        rw [hpc] at h
        simp only [] at h ⊢
        rw [List.flatten_cons, List.flatten_cons, ih st' h]
      | error e =>
        obtain ⟨e1, e2⟩ := e
        rw [hpc] at h
        simp only [] at h
        exact absurd h (by simp)

/-- Witness for `C9_stream_tee_amended`: the S4 stream parses cleanly and
passes through byte-exactly. -/
theorem C9_stream_tee_amended_witness :
    (runChunks GenSt.initial s4chunks).1.flatten = s4chunks.flatten :=
  C9_stream_tee_amended s4chunks GenSt.initial (by with_unfolding_all decide)

/-! ### Claims C2, C3, C5: the route handler -/

/-- C2 (code bug).  The claim (and §4.3 of the spec) says a unary 200
response is returned verbatim with a commit recording the extracted token
count.  The unary token-extraction path reads the undefined local `data`
(`if "usage" in data:`), so every unary request whose upstream responded
raises `NameError`: the caller receives a 500, and the outer handler's
commit targets `instance_id` — the `host:port` id, unknown to the Store —
so nothing is committed: the selected instance `A` keeps
`activeRequests = 1`, `tokenTotal = 0`, `requestCount = 0`. -/
theorem C2_unary_name_error :
    (model_request_unary (initializeLB pairConfig 0) "m"
      (.response 200 (strBytes "\x7b\"usage\":\x7b\"total_tokens\":5\x7d\x7d")) 0 1).1
      = .httpErr 500 ∧
    (lookupNode (model_request_unary (initializeLB pairConfig 0) "m"
      (.response 200 (strBytes "\x7b\"usage\":\x7b\"total_tokens\":5\x7d\x7d")) 0 1).2
      "m" "A").map (fun n => (n.active_requests, n.token_total, n.request_count))
      = some (1, 0, 0) := by
  constructor <;> with_unfolding_all decide

/-- C3 (code bug).  `get_next_instance` itself raises the 404
`ModelNotConfigured` `HTTPException`, but the route handler's
`except Exception` wrapper re-raises every selector failure as a 503
(`服务不可用`), so an unknown model surfaces 503, not the claimed 404.
The Store is left unchanged on both the unary and the streaming path. -/
theorem C3_unknown_model_503 :
    (get_next_instance (initializeLB pairConfig 0) "nope").1
      = .error .modelNotConfigured ∧
    LBErr.status .modelNotConfigured = 404 ∧
    model_request_unary (initializeLB pairConfig 0) "nope"
      (.response 200 []) 0 1 = (.httpErr 503, initializeLB pairConfig 0) ∧
    model_request_stream (initializeLB pairConfig 0) "nope"
      (.response 200 []) 0 1 = (503, [], initializeLB pairConfig 0) := by
  refine ⟨?_, ?_, ?_, ?_⟩ <;> with_unfolding_all decide

/-- C5 (code bug).  For a streaming request with upstream status 502 the
code raises `HTTPException(502)` (line 134) intending to surface the
upstream status, but the generic `except Exception` (line 268) rewraps it
as a 500; and the outer commit uses `instance_id` (`host:port`), unknown
to the Store, so no `isError=true` commit is recorded for the selected
instance: the final state equals the post-select state (`A` still has
`activeRequests = 1` and `errorCount = 0`). -/
theorem C5_stream_error_bug :
    (model_request_stream (initializeLB pairConfig 0) "m"
      (.response 502 []) 0 1).1 = 500 ∧
    (model_request_stream (initializeLB pairConfig 0) "m"
      (.response 502 []) 0 1).2.2
      = (get_next_instance (initializeLB pairConfig 0) "m").2 ∧
    (lookupNode (model_request_stream (initializeLB pairConfig 0) "m"
      (.response 502 []) 0 1).2.2 "m" "A").map
      (fun n => (n.active_requests, n.error_count)) = some (1, 0) := by
  refine ⟨?_, ?_, ?_⟩ <;> with_unfolding_all decide

end ApiGateway